import Mathlib

/-!
# Verification of the ISS tracker core (iss_tracker.py)

Shallow embedding of the epoch-indexed state-vector store of the ISS tracker
service: the nearest-epoch binary search (`get_closest_epoch`), exact-epoch
resolution (`get_state_vectors`), the derived speed query (`get_speed`), the
unit-conversion pass (`convert_data` / `convert_iss_data`), the feed parser
(`txt_to_dict` / `load_data`), the reload and clear operations (`post_data` /
`delete_data`), the paginated list operations (`get_data` / `get_epochs`), and
the longitude computation of `get_location`.

Modelling conventions:
* Python floats are modelled as exact rationals (`ℚ`); `math.isclose` becomes
  the corresponding exact inequality with `rel_tol = 1e-9`, `abs_tol = 0`.
* A record's epoch string is represented by the instant it parses to
  (`time.mktime(time.strptime(epoch[:-4], ...))`), a rational number of
  seconds; the current wall-clock time `time.time()` is an explicit `now`
  parameter.
* Python `//` on integers is floor division, which coincides with Lean's `/`
  on `ℤ` (Euclidean division) for the positive divisor `2` used here.
* Python list indexing with a possibly negative index is `pyGet` below.
* Exceptions are modelled by `Except` / explicit error values; external
  library functions (`math.sqrt`) are uninterpreted parameters.
-/

/-- Python `math.isclose a b` with the default tolerances
`rel_tol = 1e-9`, `abs_tol = 0.0`, i.e.
`|a - b| ≤ max (1e-9 * max |a| |b|) 0`; the outer `max` is redundant since
its first argument is nonnegative.  Modelled exactly over `ℚ`. -/
def isclose (a b : ℚ) : Prop := |a - b| ≤ max |a| |b| / 1000000000

instance (a b : ℚ) : Decidable (isclose a b) := by
  unfold isclose; infer_instance

/-- One ISS state vector, as produced by `load_data`: the dictionary with keys
`epoch, X, Y, Z, X_Dot, Y_Dot, Z_Dot` where the six motion fields have been
converted to float.  The `epoch` string is represented by the instant
(`epochS`, seconds) that `time.mktime(time.strptime(epoch[:-4], ...))`
assigns to it. -/
structure StateVector where
  epochS : ℚ
  X : ℚ
  Y : ℚ
  Z : ℚ
  X_Dot : ℚ
  Y_Dot : ℚ
  Z_Dot : ℚ
deriving DecidableEq, Repr

/-- Python list indexing `l[i]` for `i : ℤ`: a negative index counts from the
end of the list; `none` models an `IndexError`. -/
def pyGet (l : List StateVector) (i : ℤ) : Option StateVector :=
  if i < 0 then
    if (l.length : ℤ) + i < 0 then none else l.get? ((l.length : ℤ) + i).toNat
  else l.get? i.toNat

/-- The `while` loop of `get_closest_epoch` (iss_tracker.py lines 214-236),
with the midpoint recomputed at the head of each iteration exactly as the
source updates it at the end of the previous one.  `fuel` bounds the number of
iterations (the loop always returns before `l.length + 1` iterations; running
out of fuel models nontermination and cannot happen, see
`get_closest_epoch_loop_some`).  `none` models the `return None` fall-through
when the loop condition `0 <= left and right < len(iss_data)` fails, an
`IndexError` from `iss_data[mid]`, or nontermination; none of these is
reachable from `get_closest_epoch`. -/
def get_closest_epoch_loop (l : List StateVector) (t : ℚ) :
    ℕ → ℤ → ℤ → Option (StateVector × ℚ)
  | 0, _, _ => none
  | fuel+1, left, right =>
    if 0 ≤ left ∧ right < (l.length : ℤ) then
      match pyGet l ((left + right) / 2) with
      | none => none
      | some v =>
        if isclose v.epochS t then some (v, v.epochS - t)
        else if ¬ left < right then some (v, v.epochS - t)
        else if v.epochS < t then
          get_closest_epoch_loop l t fuel ((left + right) / 2 + 1) right
        else if t < v.epochS then
          get_closest_epoch_loop l t fuel left ((left + right) / 2 - 1)
        else get_closest_epoch_loop l t fuel left right
    else none

/-- `get_closest_epoch` (iss_tracker.py lines 187-236).  `now` is the value of
`time.time()`; an input `t = 0` is replaced by `now` (the default-argument
sentinel).  The empty dataset, for which the source returns the empty string
instead of a record/gap pair, is modelled by `none`. -/
def get_closest_epoch (l : List StateVector) (now t : ℚ) :
    Option (StateVector × ℚ) :=
  if l.length = 0 then none
  else
    get_closest_epoch_loop l (if t = 0 then now else t) (l.length + 1) 0
      ((l.length : ℤ) - 1)

/-- Epoch-ordering used for the sortedness invariant of the dataset. -/
def epochLE (a b : StateVector) : Prop := a.epochS ≤ b.epochS

instance (a b : StateVector) : Decidable (epochLE a b) := by
  unfold epochLE; infer_instance

/-- Internal result of calling the route function `get_state_vectors` from
another piece of Python code: either the list of state vectors it returns, or
the `(payload, 404)` tuple it returns when the dataset is empty, or an
exception escaping it. -/
inductive GSV where
  | vecs (l : List StateVector)
  | tupErr (code : ℕ) (msg : String)
  | raised
deriving DecidableEq, Repr

/-- Python `len` applied to what `get_state_vectors` returned: the length of
the list in the normal case, and `2` for the `(payload, 404)` error tuple. -/
def pyLenGSV : GSV → ℕ
  | GSV.vecs l => l.length
  | GSV.tupErr _ _ => 2
  | GSV.raised => 0

/-- `get_state_vectors` (iss_tracker.py lines 308-345).  The URL epoch string
is represented by `parsed`: `some es` when
`time.mktime(time.strptime(epoch[:-4], ...))` yields the instant `es`, and
`none` when that conversion raises `ValueError` (caught by the source, which
then returns `[]`).  `GSV.raised` models the uncaught `TypeError` that
unpacking a non-tuple return of `get_closest_epoch` would raise; it is
unreachable (see `get_state_vectors_vecs`). -/
def get_state_vectors (l : List StateVector) (now : ℚ) (parsed : Option ℚ) :
    GSV :=
  if l.length = 0 then
    GSV.tupErr 404 "no data can be found"
  else
    match parsed with
    | none => GSV.vecs []
    | some es =>
      match get_closest_epoch l now es with
      | none => GSV.raised
      | some (v, _) =>
        if isclose v.epochS es then GSV.vecs [v] else GSV.vecs []

/-- Python exceptions that can escape the modelled code. -/
inductive PyExc where
  | keyError (k : String)
  | valueError
  | indexError
  | typeError
deriving DecidableEq, Repr

/-- Decidable equality for `Except`, for evaluating the embedded functions
on concrete inputs. -/
instance {e a : Type} [DecidableEq e] [DecidableEq a] :
    DecidableEq (Except e a) := fun x y => by
  cases x with
  | error v =>
    cases y with
    | error w =>
      by_cases h : v = w
      · exact Decidable.isTrue (by rw [h])
      · exact Decidable.isFalse (by intro hc; injection hc with h2; exact h h2)
    | ok w => exact Decidable.isFalse (by intro hc; exact Except.noConfusion hc)
  | ok v =>
    cases y with
    | error w => exact Decidable.isFalse (by intro hc; exact Except.noConfusion hc)
    | ok w =>
      by_cases h : v = w
      · exact Decidable.isTrue (by rw [h])
      · exact Decidable.isFalse (by intro hc; injection hc with h2; exact h h2)

/-- JSON payloads produced by `get_success_payload` / `get_error_payload`
(iss_tracker.py lines 238-241). -/
inductive Payload where
  | success (msg : String)
  | failure (code : ℕ) (msg : String)
deriving DecidableEq, Repr

/-- The global `data` dictionary (iss_tracker.py line 700): the record list
under key `data` and the active unit system under key `units`. -/
structure IssData where
  data : List StateVector
  units : String
deriving DecidableEq, Repr

/-- `delete_data` (iss_tracker.py lines 538-560): sets `units` to the empty
string and clears the record list in place (neither operation can raise, so
the `except` branch is dead code). -/
def delete_data (ds : IssData) : IssData × Payload :=
  ({ data := [], units := "" }, Payload.success "data deleted")

/-- The dictionary `speed_units_map` of `get_speed`; `none` models a
`KeyError` on lookup of any other unit token. -/
def speed_units_map (u : String) : Option String :=
  if u = "SI" then some "km/s" else if u = "USCS" then some "mi/s" else none

/-- Result of `get_speed` when it returns normally: either the not-found
payload or the speed/units dictionary. -/
inductive SpeedOut where
  | notFound (p : Payload)
  | speed (value : ℚ) (units : String)
deriving DecidableEq, Repr

/-- `get_speed` (iss_tracker.py lines 347-378), with `math.sqrt` as the
uninterpreted parameter `msqrt`.  The emptiness guard is
`len(get_state_vectors(epoch)) == 0`; when `get_state_vectors` returns its
`(payload, 404)` error tuple the Python length is `2`, the guard passes, and
`ISS[0]["X_Dot"]` indexes the payload dictionary, raising
`KeyError('X_Dot')` (uncaught: only `ValueError` is handled). -/
def get_speed (msqrt : ℚ → ℚ) (ds : IssData) (now : ℚ)
    (parsed : Option ℚ) : Except PyExc SpeedOut :=
  match get_state_vectors ds.data now parsed with
  | GSV.raised => Except.error PyExc.typeError
  | GSV.tupErr _ _ =>
    if (2 : ℕ) = 0 then
      Except.ok (SpeedOut.notFound (Payload.failure 404
        "Request made for an epoch that does not exists"))
    else Except.error (PyExc.keyError "X_Dot")
  | GSV.vecs vl =>
    if vl.length = 0 then
      Except.ok (SpeedOut.notFound (Payload.failure 404
        "Request made for an epoch that does not exists"))
    else
      match vl with
      | [] => Except.error PyExc.indexError
      | v :: _ =>
        match speed_units_map ds.units with
        | none => Except.error (PyExc.keyError ds.units)
        | some u =>
          Except.ok (SpeedOut.speed
            (msqrt (v.X_Dot ^ 2 + v.Y_Dot ^ 2 + v.Z_Dot ^ 2)) u)

/-- A value stored in a record dictionary: already a float, or still a raw
string (as right after structural parsing). -/
inductive Value where
  | num (q : ℚ)
  | str (s : String)
deriving DecidableEq, Repr

/-- A record dictionary as a key-value list (Python dict keys are unique and
insertion-ordered; lookups and updates below address the first occurrence). -/
abbrev Item := List (String × Value)

/-- Dictionary read `item[key]`; `none` models a `KeyError`. -/
def lookupItem : Item → String → Option Value
  | [], _ => none
  | (k', v) :: rest, k => if k' = k then some v else lookupItem rest k

/-- Dictionary write `item[key] = v`: replaces the value at the key if
present, appends a new binding otherwise. -/
def setItem : Item → String → Value → Item
  | [], k, v => [(k, v)]
  | (k', v') :: rest, k, v =>
    if k' = k then (k', v) :: rest else (k', v') :: setItem rest k v

/-- Digits-only string value, e.g. `digitsVal ['4','2'] = some 42`. -/
def digitsVal (cs : List Char) : Option ℕ :=
  if cs ≠ [] ∧ cs.all Char.isDigit then
    some (cs.foldl (fun a c => 10 * a + (c.toNat - 48)) 0)
  else none

/-- Python `str.strip()` with no argument: removes leading and trailing
whitespace.  (Python also strips some rarer whitespace code points that the
feed never contains.) -/
def pyStrip (cs : List Char) : List Char :=
  ((cs.dropWhile Char.isWhitespace).reverse.dropWhile Char.isWhitespace).reverse

/-- Unsigned decimal literal, with an optional fractional part
(`"12"`, `"12.5"`, `"12."`, `".5"`). -/
def pyFloatUnsigned (cs : List Char) : Option ℚ :=
  match cs.splitOn '.' with
  | [w] => (digitsVal w).map (fun n => (n : ℚ))
  | [w, f] =>
    if w = [] ∧ f = [] then none
    else
      match (if w = [] then some 0 else digitsVal w),
        (if f = [] then some 0 else digitsVal f) with
      | some wn, some fn => some ((wn : ℚ) + (fn : ℚ) / (10 : ℚ) ^ f.length)
      | _, _ => none
  | _ => none

/-- Python `float(s)` on the decimal literals the ISS feed contains:
surrounding whitespace, an optional sign, and a decimal literal with an
optional fractional part.  (Exponents, `inf`/`nan` and digit underscores,
which the feed never uses, are not modelled.)  `none` models `ValueError`. -/
def pyFloat (s : String) : Option ℚ :=
  match pyStrip s.toList with
  | '-' :: rest => (pyFloatUnsigned rest).map (fun q => -q)
  | '+' :: rest => pyFloatUnsigned rest
  | cs => pyFloatUnsigned cs

/-- Python `float(value)` for a stored dict value: the identity on floats,
`pyFloat` on strings. -/
def pyFloatV : Value → Option ℚ
  | Value.num q => some q
  | Value.str s => pyFloat s

/-- The inner two loops of `convert_data` (iss_tracker.py lines 176-185) for
one record and one conversion-map entry: for each target key in order, read
`item[object_key]` (`KeyError` when absent), convert to float (`ValueError`
when non-numeric), multiply by the factor and store back in place.  The
returned item reflects all updates made before any error. -/
def convertKeys (factor : ℚ) : List String → Item → Item × Option PyExc
  | [], it => (it, none)
  | k :: ks, it =>
    match lookupItem it k with
    | none => (it, some (PyExc.keyError k))
    | some v =>
      match pyFloatV v with
      | none => (it, some PyExc.valueError)
      | some x => convertKeys factor ks (setItem it k (Value.num (x * factor)))

/-- One record, all conversion-map entries in order. -/
def convertItem : List (ℚ × List String) → Item → Item × Option PyExc
  | [], it => (it, none)
  | (f, ks) :: rest, it =>
    match convertKeys f ks it with
    | (it', some e) => (it', some e)
    | (it', none) => convertItem rest it'

/-- `convert_data` (iss_tracker.py lines 152-186): converts the records of
the list in place, one record at a time; an exception (`some e`) aborts the
traversal, leaving already-processed records converted and the remaining
records untouched. -/
def convert_data : List Item → List (ℚ × List String) → List Item × Option PyExc
  | [], _ => ([], none)
  | it :: rest, m =>
    match convertItem m it with
    | (it', some e) => (it' :: rest, some e)
    | (it', none) =>
      match convert_data rest m with
      | (rest', r) => (it' :: rest', r)

/-- The module constant `KM_TO_M = 0.6213711922` (iss_tracker.py line 17). -/
def KM_TO_M : ℚ := 6213711922 / 10000000000

/-- The six motion fields named in both conversion maps of
`convert_iss_data`. -/
def sixKeys : List String := ["X", "Y", "Z", "X_Dot", "Y_Dot", "Z_Dot"]

/-- The global `data` dictionary in its raw-dictionary view, as
`convert_iss_data` and `post_data` manipulate it. -/
structure IssDataDict where
  data : List Item
  units : String
deriving DecidableEq, Repr

/-- `convert_iss_data` (iss_tracker.py lines 491-536).  `units_arg` is the
`units` query parameter (`none` when absent, defaulted to `""`).  A
conversion error propagates as an uncaught exception, with the record list
left as `convert_data` left it (the list is mutated in place, so the partial
updates survive even though the `data["data"]` assignment is skipped). -/
def convert_iss_data (ds : IssDataDict) (units_arg : Option String) :
    IssDataDict × Except PyExc Payload :=
  if units_arg.getD "" = ds.units then
    (ds, Except.ok (Payload.success
      ("Data is already in " ++ units_arg.getD "" ++ " units!")))
  else if units_arg.getD "" = "SI" then
    match convert_data ds.data [(1 / KM_TO_M, sixKeys)] with
    | (d', some e) => ({ data := d', units := ds.units }, Except.error e)
    | (d', none) => ({ data := d', units := "SI" },
        Except.ok (Payload.success "Data has been converted to SI units"))
  else if units_arg.getD "" = "USCS" then
    match convert_data ds.data [(KM_TO_M, sixKeys)] with
    | (d', some e) => ({ data := d', units := ds.units }, Except.error e)
    | (d', none) => ({ data := d', units := "USCS" },
        Except.ok (Payload.success "Data has been converted to USCS units"))
  else if units_arg.getD "" = "" then
    (ds, Except.ok (Payload.failure 404
      "Invalid query parameter. /convert must be used with query parameter units "))
  else
    (ds, Except.ok (Payload.failure 404
      "Only SI and USCS units are supported!"))

/-- Worker of `pySplit`, structurally recursive on a fuel bound: each step
consumes at least one character, so fuel `cs.length` always suffices and the
fuel-exhaustion branch is unreachable. -/
def pySplitGo (sep : List Char) : ℕ → List Char → List (List Char)
  | _, [] => [[]]
  | 0, cs => [cs]
  | fuel+1, c :: cs =>
    if sep ≠ [] ∧ sep.isPrefixOf (c :: cs) then
      [] :: pySplitGo sep fuel (List.drop (sep.length - 1) cs)
    else
      match pySplitGo sep fuel cs with
      | [] => [[c]]
      | w :: ws => (c :: w) :: ws

/-- Python `str.split(sep)` with an explicit (nonempty) separator: splits on
every non-overlapping occurrence of `sep`, left to right, keeping empty
chunks; `"".split(sep) = [""]`.  Text is represented as `List Char`. -/
def pySplit (sep cs : List Char) : List (List Char) := pySplitGo sep cs.length cs

/-- The dict comprehension of `txt_to_dict`
(`{keys[i]: values[i] for i in range(len(keys))}`) in the non-raising case
`len(values) ≥ len(keys)`: each key paired with the value at its index,
surplus values silently dropped. -/
def buildRecord (keys : List String) (values : List (List Char)) : Item :=
  keys.zip (values.map (fun cs => Value.str (String.mk cs)))

/-- The line loop of `txt_to_dict` (iss_tracker.py lines 122-135) over the
already-split lines, threading the `parse` flag.  A line is processed when
the flag is set and the line is non-empty; a processed line whose split has
fewer values than there are keys raises `IndexError` (re-raised by the
source's handler); the flag is turned on by any line whose stripped text
equals the stripped start marker — after the line was processed, exactly as
in the source. -/
def txt_to_dict_go (keys : List String) (splitline start : List Char) :
    Bool → List (List Char) → Except PyExc (List Item)
  | _, [] => Except.ok []
  | parse, line :: rest =>
    if parse ∧ line ≠ [] then
      if (pySplit splitline line).length < keys.length then
        Except.error PyExc.indexError
      else
        match txt_to_dict_go keys splitline start
            (parse || (pyStrip line == pyStrip start)) rest with
        | Except.error e => Except.error e
        | Except.ok tail =>
          Except.ok (buildRecord keys (pySplit splitline line) :: tail)
    else
      txt_to_dict_go keys splitline start
        (parse || (pyStrip line == pyStrip start)) rest

/-- `txt_to_dict` (iss_tracker.py lines 100-136): split the text into lines,
then run the line loop with the flag initially set iff the start marker is
empty. -/
def txt_to_dict (txt : List Char) (keys : List String)
    (splitlines splitline start : List Char) : Except PyExc (List Item) :=
  txt_to_dict_go keys splitline start (start == []) (pySplit splitlines txt)

/-- The sub-sequence of lines that the loop of `txt_to_dict` processes (flag
set and line non-empty), for relating the parser's output to its input. -/
def processedLines (start : List Char) : Bool → List (List Char) → List (List Char)
  | _, [] => []
  | parse, line :: rest =>
    (if parse ∧ line ≠ [] then [line] else []) ++
      processedLines start (parse || (pyStrip line == pyStrip start)) rest

/-- The float-conversion loop of `load_data` (iss_tracker.py lines 42-47)
over one parsed record: every key except `epoch` is converted in place from
its raw string to a float; a missing key raises `KeyError`, a non-numeric
value raises `ValueError` (neither is caught inside `load_data`). -/
def floatifyKeys : List String → Item → Except PyExc Item
  | [], it => Except.ok it
  | k :: ks, it =>
    if k = "epoch" then floatifyKeys ks it
    else
      match lookupItem it k with
      | none => Except.error (PyExc.keyError k)
      | some v =>
        match pyFloatV v with
        | none => Except.error PyExc.valueError
        | some q => floatifyKeys ks (setItem it k (Value.num q))

/-- The outer loop of the float conversion, over all records. -/
def floatifyItems (keys : List String) : List Item → Except PyExc (List Item)
  | [] => Except.ok []
  | it :: rest =>
    match floatifyKeys keys it with
    | Except.error e => Except.error e
    | Except.ok it' =>
      match floatifyItems keys rest with
      | Except.error e => Except.error e
      | Except.ok rest' => Except.ok (it' :: rest')

/-- The key list of `load_data` (iss_tracker.py line 36). -/
def issKeys : List String := ["epoch", "X", "Y", "Z", "X_Dot", "Y_Dot", "Z_Dot"]

/-- `load_data` (iss_tracker.py lines 21-48), applied to the fetched feed
text: structural parse via `txt_to_dict` with separators `"\r\n"` and `" "`
and start marker `"COMMENT End sequence of events"`, then float conversion
of the six motion fields of every record.  Any raised exception propagates
to the caller. -/
def load_data (txt : List Char) : Except PyExc (List Item) :=
  match txt_to_dict txt issKeys ['\r', '\n'] [' ']
      "COMMENT End sequence of events".toList with
  | Except.error e => Except.error e
  | Except.ok ds => floatifyItems issKeys ds

/-- `post_data` (iss_tracker.py lines 563-585).  `fetched` is the outcome of
`requests.get(DATA_URL).text`: `none` when the fetch raises, `some txt`
otherwise.  The assignment `data = {"data": load_data(), "units": "SI"}`
only executes once `load_data()` has returned, so when the fetch or the
parse fails the bare `except` reports failure and the previous dataset is
untouched. -/
def post_data (ds : IssDataDict) (fetched : Option (List Char)) :
    IssDataDict × Payload :=
  match fetched with
  | none => (ds, Payload.failure 404 "Unable to reload data. Please try again later")
  | some txt =>
    match load_data txt with
    | Except.error _ =>
      (ds, Payload.failure 404 "Unable to reload data. Please try again later")
    | Except.ok recs => ({ data := recs, units := "SI" }, Payload.success "data restored")

/-- Python `int(s)`: surrounding whitespace, an optional sign and decimal
digits (digit-group underscores, unused by the service's clients, are not
modelled); `none` models `ValueError`. -/
def pyInt (s : String) : Option ℤ :=
  match pyStrip s.toList with
  | '-' :: rest => (digitsVal rest).map (fun n => -(n : ℤ))
  | '+' :: rest => (digitsVal rest).map (fun n => (n : ℤ))
  | cs => (digitsVal cs).map (fun n => (n : ℤ))

/-- Python list slicing `l[a:b]` for the nonnegative bounds the list routes
produce (negative bounds behave differently in Python but are unreachable:
both routes reject negative offset/limit first). -/
def pySlice {α : Type} (l : List α) (a b : ℤ) : List α :=
  (l.take b.toNat).drop a.toNat

/-- `int(request.args.get(name, dflt))`: the query argument when present
(parsed, `ValueError` as `none`), the integer default otherwise. -/
def argVal (arg : Option String) (dflt : ℤ) : Option ℤ :=
  match arg with
  | none => some dflt
  | some s => pyInt s

/-- `get_data` (iss_tracker.py lines 246-275): parse `limit` (default
`2**31 - 1`), reject negatives, parse `offset` (default `0`), reject
negatives — any failure returns the string/404 error tuple — then return the
slice `iss_data[offset : offset + limit]`. -/
def get_data (l : List StateVector) (limit_arg offset_arg : Option String) :
    Except (String × ℕ) (List StateVector) :=
  match argVal limit_arg (2 ^ 31 - 1) with
  | none => Except.error ("ERROR: limit and offset must be a positive intgers", 404)
  | some limit =>
    if limit < 0 then
      Except.error ("ERROR: limit and offset must be a positive intgers", 404)
    else
      match argVal offset_arg 0 with
      | none => Except.error ("ERROR: limit and offset must be a positive intgers", 404)
      | some offset =>
        if offset < 0 then
          Except.error ("ERROR: limit and offset must be a positive intgers", 404)
        else Except.ok (pySlice l offset (offset + limit))

/-- `get_epochs` (iss_tracker.py lines 277-306): same pagination handling
(with a payload/404 error tuple), applied to the list of the records'
epochs. -/
def get_epochs (l : List StateVector) (limit_arg offset_arg : Option String) :
    Except (Payload × ℕ) (List ℚ) :=
  match argVal limit_arg (2 ^ 31 - 1) with
  | none => Except.error
      (Payload.failure 404 "ERROR: limit and offset must be a positive intgers", 404)
  | some limit =>
    if limit < 0 then
      Except.error
        (Payload.failure 404 "ERROR: limit and offset must be a positive intgers", 404)
    else
      match argVal offset_arg 0 with
      | none => Except.error
          (Payload.failure 404 "ERROR: limit and offset must be a positive intgers", 404)
      | some offset =>
        if offset < 0 then
          Except.error
            (Payload.failure 404 "ERROR: limit and offset must be a positive intgers", 404)
        else Except.ok (pySlice (l.map (fun v => v.epochS)) offset (offset + limit))

/-- Python `int` of a one-character digit slice, as in
`int(utc_time[12:13])`.  Defined (with a junk value) on non-digit
characters, which the well-formed epochs of the feed never put at the
sliced positions. -/
def int1 (c : Char) : ℚ := ((c.toNat - 48 : ℕ) : ℚ)

/-- `str(datetime.strptime(epoch[:-4], '%Y-%m-%dT%H:%M:%S'))` for a
well-formed epoch string `YYYY-MM-DDTHH:MM:SS.fff`: the last four
characters dropped and the `T` separator re-printed as a space, giving
`YYYY-MM-DD HH:MM:SS`. -/
def utcTime (epoch : List Char) : List Char :=
  (epoch.take (epoch.length - 4)).map (fun c => if c = 'T' then ' ' else c)

/-- `hrs = int(utc_time[12:13])` (iss_tracker.py line 411): the single
character at index 12, the SECOND digit of the zero-padded hour. -/
def get_location_hrs (epoch : List Char) : ℚ := int1 ((utcTime epoch).getD 12 ' ')

/-- `mins = int(utc_time[15:16])` (iss_tracker.py line 412): the single
character at index 15, the SECOND digit of the zero-padded minute. -/
def get_location_mins (epoch : List Char) : ℚ := int1 ((utcTime epoch).getD 15 ' ')

/-- The longitude computation of `get_location` (iss_tracker.py lines 416
and 420).  `atanDeg` stands for the value of the external
`math.degrees(math.atan2(ISS["Y"], ISS["X"]))`; the Earth-rotation
correction uses the sliced single digits of the hour and minute; a value
above 180 is rewritten to `-180 + longitude - 180`, a value below -180 is
returned unchanged. -/
def get_location_longitude (atanDeg : ℚ) (epoch : List Char) : ℚ :=
  if atanDeg - ((get_location_hrs epoch - 12) + get_location_mins epoch / 60)
      * (360 / 24) + 32 > 180 then
    -180 + (atanDeg - ((get_location_hrs epoch - 12) + get_location_mins epoch / 60)
      * (360 / 24) + 32) - 180
  else
    atanDeg - ((get_location_hrs epoch - 12) + get_location_mins epoch / 60)
      * (360 / 24) + 32

/-- Modelled from the spec's words, for comparison with the code's
longitude: `atan2(y, x)` in degrees, minus `((hour - 12) + minute/60) * 15`
with the TRUE hour and minute of the epoch, plus the fixed offset 32,
normalized into `[-180, 180]` (on both sides). -/
def spec_longitude (atanDeg : ℚ) (hour minute : ℕ) : ℚ :=
  if atanDeg - (((hour : ℚ) - 12) + (minute : ℚ) / 60) * 15 + 32 > 180 then
    atanDeg - (((hour : ℚ) - 12) + (minute : ℚ) / 60) * 15 + 32 - 360
  else if atanDeg - (((hour : ℚ) - 12) + (minute : ℚ) / 60) * 15 + 32 < -180 then
    atanDeg - (((hour : ℚ) - 12) + (minute : ℚ) / 60) * 15 + 32 + 360
  else
    atanDeg - (((hour : ℚ) - 12) + (minute : ℚ) / 60) * 15 + 32

/-- Reflexivity of `isclose`: the tolerance bound is nonnegative. -/
theorem isclose_self (a : ℚ) : isclose a a := by
  unfold isclose
  simp
  positivity

/-- Indexing with a nonnegative in-range index returns the corresponding
element. -/
lemma pyGet_nonneg (l : List StateVector) (i : ℤ) (h0 : 0 ≤ i)
    (h1 : i < (l.length : ℤ)) :
    pyGet l i = some (l.get ⟨i.toNat, by omega⟩) := by
  unfold pyGet
  rw [if_neg (by omega)]
  exact List.get?_eq_get (by omega)

/-- Indexing a nonempty list at any index in `[-1, length)` (the range the
binary search can produce) succeeds and returns a member of the list. -/
lemma pyGet_some (l : List StateVector) (i : ℤ) (h0 : (-1 : ℤ) ≤ i)
    (h1 : i < (l.length : ℤ)) (hl : (1 : ℤ) ≤ (l.length : ℤ)) :
    ∃ v, pyGet l i = some v ∧ v ∈ l := by
  by_cases hneg : i < 0
  · have hi : i = -1 := by omega
    subst hi
    unfold pyGet
    rw [if_pos hneg, if_neg (by omega)]
    have hlt : ((l.length : ℤ) + -1).toNat < l.length := by omega
    exact ⟨l.get ⟨((l.length : ℤ) + -1).toNat, hlt⟩,
      List.get?_eq_get hlt, List.get_mem _ _ _⟩
  · have hlt : i.toNat < l.length := by omega
    exact ⟨l.get ⟨i.toNat, hlt⟩, pyGet_nonneg l i (by omega) h1,
      List.get_mem _ _ _⟩

/-- The binary-search loop, run on a nonempty list from any bracket
satisfying its invariant with enough fuel, returns `some` pair consisting of a
record of the list and the signed gap `record epoch - target`.  In particular
it never falls through the loop, never raises an `IndexError` and always
terminates. -/
lemma get_closest_epoch_loop_some (l : List StateVector) (t : ℚ) :
    ∀ (fuel : ℕ) (left right : ℤ),
      0 ≤ left → left ≤ right + 1 → (-1 : ℤ) ≤ right →
      right < (l.length : ℤ) → (1 : ℤ) ≤ (l.length : ℤ) →
      (right - left + 1).toNat < fuel →
      ∃ v, get_closest_epoch_loop l t fuel left right =
        some (v, v.epochS - t) ∧ v ∈ l := by
  intro fuel
  induction fuel with
  | zero =>
    intro left right h0 h1 h2 h3 hn hf
    exact absurd hf (by omega)
  | succ f ih =>
    intro left right h0 h1 h2 h3 hn hf
    have hm1 : (-1 : ℤ) ≤ (left + right) / 2 := by omega
    have hm2 : (left + right) / 2 ≤ right := by omega
    obtain ⟨v, hv, hvm⟩ := pyGet_some l ((left + right) / 2) hm1 (by omega) hn
    simp only [get_closest_epoch_loop, hv]
    rw [if_pos (⟨h0, h3⟩ : 0 ≤ left ∧ right < (l.length : ℤ))]
    by_cases hcl : isclose v.epochS t
    · exact ⟨v, by rw [if_pos hcl], hvm⟩
    · by_cases hlr : left < right
      · have hml : left ≤ (left + right) / 2 := by omega
        have hmr : (left + right) / 2 < right := by omega
        rw [if_neg hcl, if_neg (not_not_intro hlr)]
        by_cases hlt : v.epochS < t
        · rw [if_pos hlt]
          exact ih ((left + right) / 2 + 1) right (by omega) (by omega)
            (by omega) h3 hn (by omega)
        · rw [if_neg hlt]
          by_cases hgt : t < v.epochS
          · rw [if_pos hgt]
            exact ih left ((left + right) / 2 - 1) h0 (by omega)
              (by omega) (by omega) hn (by omega)
          · exfalso
            have heq : v.epochS = t := le_antisymm (not_lt.mp hgt) (not_lt.mp hlt)
            rw [heq] at hcl
            exact hcl (isclose_self t)
      · exact ⟨v, by rw [if_neg hcl, if_pos hlr], hvm⟩

/-- On a dataset sorted by epoch, if the target instant occurs exactly at some
index then the binary-search loop returns a record whose epoch is `isclose` to
the target (the `isclose` having possibly fired at a neighbouring record
before the bracket reached the exact index). -/
lemma get_closest_epoch_loop_finds (l : List StateVector) (t : ℚ)
    (hs : List.Sorted epochLE l) :
    ∀ (fuel : ℕ) (left right : ℤ) (j : ℕ) (hj : j < l.length),
      (l.get ⟨j, hj⟩).epochS = t →
      0 ≤ left → left ≤ (j : ℤ) → (j : ℤ) ≤ right →
      right < (l.length : ℤ) → (right - left + 1).toNat < fuel →
      ∃ v, get_closest_epoch_loop l t fuel left right =
        some (v, v.epochS - t) ∧ isclose v.epochS t := by
  intro fuel
  induction fuel with
  | zero =>
    intro left right j hj hjt h0 h1 h2 h3 hf
    exact absurd hf (by omega)
  | succ f ih =>
    intro left right j hj hjt h0 h1 h2 h3 hf
    have hm0 : 0 ≤ (left + right) / 2 := by omega
    have hm2 : (left + right) / 2 ≤ right := by omega
    have hmlt : ((left + right) / 2).toNat < l.length := by omega
    have hv := pyGet_nonneg l ((left + right) / 2) hm0 (by omega)
    simp only [get_closest_epoch_loop, hv]
    rw [if_pos (⟨h0, h3⟩ : 0 ≤ left ∧ right < (l.length : ℤ))]
    set v := l.get ⟨((left + right) / 2).toNat, hmlt⟩ with hvdef
    by_cases hcl : isclose v.epochS t
    · exact ⟨v, by rw [if_pos hcl], hcl⟩
    · -- the midpoint is not close to the target, so it is not the exact hit
      have hne : j ≠ ((left + right) / 2).toNat := by
        intro hcontra
        apply hcl
        have : v.epochS = t := by
          rw [hvdef]
          rw [← hjt]
          congr 1
          exact (Fin.mk.injEq _ _ _ _).mpr hcontra.symm ▸ rfl
        rw [this]
        exact isclose_self t
      by_cases hlr : left < right
      · have hml : left ≤ (left + right) / 2 := by omega
        have hmr : (left + right) / 2 < right := by omega
        rw [if_neg hcl, if_neg (not_not_intro hlr)]
        by_cases hlt : v.epochS < t
        · -- all indices ≤ mid have epoch < t, so the hit lies right of mid
          have hjgt : ((left + right) / 2) < (j : ℤ) := by
            by_contra hcon
            have hjle : j ≤ ((left + right) / 2).toNat := by omega
            rcases Nat.lt_or_ge j ((left + right) / 2).toNat with hlt2 | hge
            · have := List.Sorted.rel_get_of_lt hs
                (show (⟨j, hj⟩ : Fin l.length) < ⟨((left + right) / 2).toNat, hmlt⟩ from hlt2)
              unfold epochLE at this
              rw [hjt] at this
              exact absurd (lt_of_le_of_lt this hlt) (lt_irrefl t)
            · exact hne (by omega)
          rw [if_pos hlt]
          exact ih ((left + right) / 2 + 1) right j hj hjt (by omega)
            (by omega) h2 h3 (by omega)
        · rw [if_neg hlt]
          by_cases hgt : t < v.epochS
          · -- all indices ≥ mid have epoch > t, so the hit lies left of mid
            have hjlt : (j : ℤ) < (left + right) / 2 := by
              by_contra hcon
              have hge : ((left + right) / 2).toNat ≤ j := by omega
              rcases Nat.lt_or_ge ((left + right) / 2).toNat j with hlt2 | hge2
              · have := List.Sorted.rel_get_of_lt hs
                  (show (⟨((left + right) / 2).toNat, hmlt⟩ : Fin l.length) < ⟨j, hj⟩ from hlt2)
                unfold epochLE at this
                rw [hjt] at this
                exact absurd (lt_of_lt_of_le hgt this) (lt_irrefl t)
              · exact hne (by omega)
            rw [if_pos hgt]
            exact ih left ((left + right) / 2 - 1) j hj hjt h0 h1
              (by omega) (by omega) (by omega)
          · exfalso
            have heq : v.epochS = t := le_antisymm (not_lt.mp hgt) (not_lt.mp hlt)
            rw [heq] at hcl
            exact hcl (isclose_self t)
      · -- collapsed bracket: left = j = right = mid, so the exact hit is close
        exfalso
        have hj2 : (j : ℤ) = (left + right) / 2 := by omega
        exact hne (by omega)

/-- On a nonempty dataset, `get_closest_epoch` always returns `some` record of
the dataset paired with the signed gap `record epoch - target`, where the
target is the requested instant, or `now` when the requested instant is the
sentinel `0`. -/
lemma get_closest_epoch_some (l : List StateVector) (now t : ℚ)
    (hl : l ≠ []) :
    ∃ v, get_closest_epoch l now t =
      some (v, v.epochS - (if t = 0 then now else t)) ∧ v ∈ l := by
  have hn : 1 ≤ l.length := List.length_pos.mpr hl
  unfold get_closest_epoch
  rw [if_neg (by omega)]
  exact get_closest_epoch_loop_some l (if t = 0 then now else t)
    (l.length + 1) 0 ((l.length : ℤ) - 1) (by omega) (by omega) (by omega)
    (by omega) (by omega) (by omega)

/-- On a sorted dataset containing a record whose epoch instant is exactly the
(nonzero) target, `get_closest_epoch` returns a record whose epoch is
`isclose` to the target. -/
lemma get_closest_epoch_finds (l : List StateVector) (now t : ℚ)
    (hs : List.Sorted epochLE l) (ht : t ≠ 0) (j : ℕ) (hj : j < l.length)
    (hjt : (l.get ⟨j, hj⟩).epochS = t) :
    ∃ v, get_closest_epoch l now t = some (v, v.epochS - t) ∧
      isclose v.epochS t := by
  have hn : 1 ≤ l.length := by omega
  unfold get_closest_epoch
  rw [if_neg (by omega), if_neg ht]
  exact get_closest_epoch_loop_finds l t hs (l.length + 1) 0
    ((l.length : ℤ) - 1) j hj hjt (by omega) (by omega) (by omega)
    (by omega) (by omega)

/-- C1: the claim says `get_closest_epoch` returns the record whose epoch is
closest in time to the target.  The code violates this: on the dataset sorted
ascending with epoch instants `0` and `100` and target instant `40`, the
binary search answers the record at epoch `100` with signed gap `+60`, even
though the record at epoch `0` is strictly closer (`|0 - 40| = 40 < 60`).
The signed-gap convention (record time minus target time) itself is honoured,
as the returned gap `60 = 100 - 40` shows. -/
theorem get_closest_epoch_returns_farther_record :
    List.Sorted epochLE
      [(⟨0, 0, 0, 0, 0, 0, 0⟩ : StateVector), ⟨100, 0, 0, 0, 0, 0, 0⟩] ∧
    get_closest_epoch [⟨0, 0, 0, 0, 0, 0, 0⟩, ⟨100, 0, 0, 0, 0, 0, 0⟩] 5 40 =
      some (⟨100, 0, 0, 0, 0, 0, 0⟩, 60) ∧
    |(0 : ℚ) - 40| < |(100 : ℚ) - 40| := by
  refine ⟨?_, ?_, by norm_num⟩
  · simp [List.sorted_cons, epochLE]
  · norm_num [get_closest_epoch, get_closest_epoch_loop, pyGet, isclose,
      List.get?]

/-- C10: `get_closest_epoch` treats a caller-supplied target instant of
exactly `0` as the default-argument sentinel and silently substitutes the
current wall-clock time `now`, so the search proceeds exactly as if the
caller had asked for `now`. -/
theorem get_closest_epoch_zero_sentinel (l : List StateVector) (now : ℚ) :
    get_closest_epoch l now 0 = get_closest_epoch l now now := by
  unfold get_closest_epoch
  by_cases hnow : now = 0
  · rw [if_pos rfl, if_pos hnow, hnow]
  · rw [if_pos rfl, if_neg hnow]

/-- C2, counterexample: the claim says an epoch string whose instant is not
present in the dataset yields an empty list.  False: on the one-record
dataset with epoch instant `2000000000` (year 2033), a request for the
instant `2000000001` — present in no record — still returns that record,
because `math.isclose` with `rel_tol = 1e-9` treats instants of this
magnitude as equal when they differ by up to about two seconds. -/
theorem get_state_vectors_absent_epoch_nonempty :
    (∀ v ∈ [(⟨2000000000, 1, 2, 3, 4, 5, 6⟩ : StateVector)],
      v.epochS ≠ (2000000001 : ℚ)) ∧
    get_state_vectors [⟨2000000000, 1, 2, 3, 4, 5, 6⟩] 5
      (some 2000000001) = GSV.vecs [⟨2000000000, 1, 2, 3, 4, 5, 6⟩] := by
  constructor
  · intro v hv
    simp only [List.mem_singleton] at hv
    rw [hv]
    norm_num
  · norm_num [get_state_vectors, get_closest_epoch, get_closest_epoch_loop,
      pyGet, isclose, List.get?]

/-- C2, amended: on a nonempty dataset sorted by epoch, for a requested
epoch string parsing to a nonzero instant `es`: if some record's epoch
instant is exactly `es` then `get_state_vectors` returns a list of exactly
one record, whose epoch is within the `math.isclose` floating-point
tolerance of `es` (not necessarily the record bearing the epoch `es`
itself); if no record's epoch is within tolerance of `es` it returns the
empty list; and for every request — parseable or not — it returns a list
and raises no exception. -/
theorem get_state_vectors_amended (l : List StateVector) (now es : ℚ)
    (hs : List.Sorted epochLE l) (hl : l ≠ []) (hes : es ≠ 0) :
    ((∃ j, ∃ hj : j < l.length, (l.get ⟨j, hj⟩).epochS = es) →
      ∃ v, get_state_vectors l now (some es) = GSV.vecs [v] ∧
        isclose v.epochS es) ∧
    ((∀ v ∈ l, ¬ isclose v.epochS es) →
      get_state_vectors l now (some es) = GSV.vecs []) ∧
    (∀ parsed, ∃ out, get_state_vectors l now parsed = GSV.vecs out) := by
  have hn : ¬ l.length = 0 := fun h => hl (List.length_eq_zero.mp h)
  refine ⟨?_, ?_, ?_⟩
  · rintro ⟨j, hj, hjt⟩
    obtain ⟨v, hv, hcl⟩ := get_closest_epoch_finds l now es hs hes j hj hjt
    refine ⟨v, ?_, hcl⟩
    unfold get_state_vectors
    rw [if_neg hn]
    dsimp only
    rw [hv]
    dsimp only
    rw [if_pos hcl]
  · intro hnone
    obtain ⟨v, hv, hvm⟩ := get_closest_epoch_some l now es hl
    unfold get_state_vectors
    rw [if_neg hn]
    dsimp only
    rw [hv]
    dsimp only
    rw [if_neg (hnone v hvm)]
  · intro parsed
    match parsed with
    | none =>
      refine ⟨[], ?_⟩
      unfold get_state_vectors
      rw [if_neg hn]
    | some es' =>
      obtain ⟨v, hv, hvm⟩ := get_closest_epoch_some l now es' hl
      unfold get_state_vectors
      rw [if_neg hn]
      dsimp only
      rw [hv]
      dsimp only
      by_cases hcl : isclose v.epochS es'
      · exact ⟨[v], by rw [if_pos hcl]⟩
      · exact ⟨[], by rw [if_neg hcl]⟩

/-- Witness for `get_state_vectors_amended` at a concrete dataset: the
two-record dataset with epoch instants `10` and `20`, queried for the absent
and out-of-tolerance instant `999`, returns the empty list. -/
theorem get_state_vectors_amended_witness :
    get_state_vectors [(⟨10, 1, 2, 3, 4, 5, 6⟩ : StateVector),
      ⟨20, 1, 2, 3, 4, 5, 6⟩] 5 (some 999) = GSV.vecs [] :=
  (get_state_vectors_amended
    [⟨10, 1, 2, 3, 4, 5, 6⟩, ⟨20, 1, 2, 3, 4, 5, 6⟩] 5 999
    (by simp [List.sorted_cons, epochLE]; norm_num)
    (by simp) (by norm_num)).2.1
    (by
      intro v hv
      rcases List.mem_cons.mp hv with h | h
      · rw [h]; norm_num [isclose]
      · rcases List.mem_singleton.mp h with h2
        rw [h2]; norm_num [isclose])

/-- C4: the claim says that after `delete_data` empties the dataset, every
epoch-based query returns a well-defined no-data result and never raises.
The code violates this for `get_speed` (and `get_location`): on the cleared
dataset `get_state_vectors` returns its `(payload, 404)` tuple, whose Python
length `2` defeats the `len(...) == 0` emptiness guard, and the subsequent
`ISS[0]["X_Dot"]` raises an uncaught `KeyError` — for every requested epoch
string, parseable or not, and whatever the wall-clock time. -/
theorem get_speed_raises_after_delete (msqrt : ℚ → ℚ) (ds : IssData)
    (now : ℚ) (parsed : Option ℚ) :
    get_speed msqrt (delete_data ds).1 now parsed =
      Except.error (PyExc.keyError "X_Dot") := rfl

/-- A write is visible to a subsequent read of the same key. -/
lemma lookupItem_setItem_self (it : Item) (k : String) (v : Value) :
    lookupItem (setItem it k v) k = some v := by
  induction it with
  | nil => simp [setItem, lookupItem]
  | cons p rest ih =>
    obtain ⟨pk, pv⟩ := p
    by_cases hk : pk = k
    · simp [setItem, hk, lookupItem]
    · simp [setItem, hk, lookupItem, ih]

/-- A write does not affect reads of other keys. -/
lemma lookupItem_setItem_ne (it : Item) (k k' : String) (v : Value)
    (h : k' ≠ k) : lookupItem (setItem it k v) k' = lookupItem it k' := by
  have hkk : ¬ k = k' := fun hc => h hc.symm
  induction it with
  | nil => simp [setItem, lookupItem, hkk]
  | cons p rest ih =>
    obtain ⟨pk, pv⟩ := p
    by_cases hk : pk = k
    · simp [setItem, hk, lookupItem, hkk]
    · by_cases hk' : pk = k'
      · simp [setItem, hk, lookupItem, hk', h]
      · simp [setItem, hk, lookupItem, hk', ih]

/-- Two writes to the same key: the second wins. -/
lemma setItem_setItem_self (it : Item) (k : String) (v w : Value) :
    setItem (setItem it k v) k w = setItem it k w := by
  induction it with
  | nil => simp [setItem]
  | cons p rest ih =>
    obtain ⟨pk, pv⟩ := p
    by_cases hk : pk = k
    · simp [setItem, hk]
    · simp [setItem, hk, ih]

/-- Writes to distinct keys commute, provided the first key is present (so
that neither write order appends it). -/
lemma setItem_comm (it : Item) (k k' : String) (v w : Value) (h : k ≠ k')
    (hp : ∃ u, lookupItem it k = some u) :
    setItem (setItem it k v) k' w = setItem (setItem it k' w) k v := by
  have hkk : ¬ k' = k := fun hc => h hc.symm
  induction it with
  | nil => simp [lookupItem] at hp
  | cons p rest ih =>
    obtain ⟨pk, pv⟩ := p
    by_cases hk : pk = k
    · simp [setItem, hk, h, hkk]
    · by_cases hk' : pk = k'
      · simp [setItem, hk, hk', h, hkk]
      · have hp' : ∃ u, lookupItem rest k = some u := by
          simpa [lookupItem, hk] using hp
        simp [setItem, hk, hk', ih hp']

/-- Writing back the value a key already holds is the identity. -/
lemma setItem_lookup_self (it : Item) (k : String) (v : Value)
    (h : lookupItem it k = some v) : setItem it k v = it := by
  induction it with
  | nil => simp [lookupItem] at h
  | cons p rest ih =>
    obtain ⟨pk, pv⟩ := p
    by_cases hk : pk = k
    · simp [lookupItem, hk] at h
      simp [setItem, hk, h]
    · simp [lookupItem, hk] at h
      simp [setItem, hk, ih h]

/-- A conversion pass over keys not containing `k` leaves `k`'s value
unchanged. -/
lemma lookupItem_convertKeys_not_mem (f : ℚ) (ks : List String)
    (k : String) (hk : k ∉ ks) :
    ∀ it : Item, lookupItem (convertKeys f ks it).1 k = lookupItem it k := by
  induction ks with
  | nil => intro it; simp [convertKeys]
  | cons k0 ks ih =>
    intro it
    have hk0 : k ≠ k0 := fun hc => hk (hc ▸ List.mem_cons_self k0 ks)
    have hks : k ∉ ks := fun hc => hk (List.mem_cons_of_mem k0 hc)
    cases hl : lookupItem it k0 with
    | none => simp [convertKeys, hl]
    | some v =>
      cases hx : pyFloatV v with
      | none => simp [convertKeys, hl, hx]
      | some x =>
        simp only [convertKeys, hl, hx]
        rw [ih hks, lookupItem_setItem_ne _ _ _ _ hk0]

/-- A conversion pass over keys not containing `k` commutes with a write to
`k`. -/
lemma convertKeys_setItem_comm (f : ℚ) (ks : List String) (k : String)
    (hk : k ∉ ks) :
    ∀ (it : Item) (v : Value),
      convertKeys f ks (setItem it k v) =
        ((setItem (convertKeys f ks it).1 k v), (convertKeys f ks it).2) := by
  induction ks with
  | nil => intro it v; simp [convertKeys]
  | cons k0 ks ih =>
    intro it v
    have hk0 : k ≠ k0 := fun hc => hk (hc ▸ List.mem_cons_self k0 ks)
    have hks : k ∉ ks := fun hc => hk (List.mem_cons_of_mem k0 hc)
    have hl0 : lookupItem (setItem it k v) k0 = lookupItem it k0 :=
      lookupItem_setItem_ne it k k0 v (fun hc => hk0 hc.symm)
    cases hl : lookupItem it k0 with
    | none => simp [convertKeys, hl, hl0]
    | some v0 =>
      cases hx : pyFloatV v0 with
      | none => simp [convertKeys, hl, hl0, hx]
      | some x =>
        simp only [convertKeys, hl, hl0, hx]
        rw [← setItem_comm it k0 k (Value.num (x * f)) v
          (fun hc => hk0 hc.symm) ⟨v0, hl⟩]
        exact ih hks (setItem it k0 (Value.num (x * f))) v

/-- Round trip through one record: converting the (pairwise distinct,
present-and-numeric) keys by `f` and then by `g` with `f * g = 1` restores
the record exactly, and neither pass errors. -/
lemma convertKeys_roundtrip (f g : ℚ) (hfg : f * g = 1) :
    ∀ (ks : List String), ks.Nodup →
      ∀ it : Item, (∀ k ∈ ks, ∃ q, lookupItem it k = some (Value.num q)) →
        ∃ it1, convertKeys f ks it = (it1, none) ∧
          convertKeys g ks it1 = (it, none) := by
  intro ks
  induction ks with
  | nil => intro _ it _; exact ⟨it, by simp [convertKeys], by simp [convertKeys]⟩
  | cons k ks ih =>
    intro hnd it hnum
    have hknotin : k ∉ ks := (List.nodup_cons.mp hnd).1
    have hndks : ks.Nodup := (List.nodup_cons.mp hnd).2
    obtain ⟨x, hx⟩ := hnum k (List.mem_cons_self k ks)
    have hnum' : ∀ k' ∈ ks, ∃ q,
        lookupItem (setItem it k (Value.num (x * f))) k' = some (Value.num q) := by
      intro k' hk'
      have hne : k' ≠ k := fun hc => hknotin (hc ▸ hk')
      rw [lookupItem_setItem_ne it k k' _ hne]
      exact hnum k' (List.mem_cons_of_mem k hk')
    obtain ⟨it1, hit1, hback⟩ := ih hndks (setItem it k (Value.num (x * f))) hnum'
    refine ⟨it1, ?_, ?_⟩
    · simp [convertKeys, hx, pyFloatV, hit1]
    · have hl1 : lookupItem it1 k = some (Value.num (x * f)) := by
        have := lookupItem_convertKeys_not_mem f ks k hknotin
          (setItem it k (Value.num (x * f)))
        rw [hit1] at this
        rw [this, lookupItem_setItem_self]
      have hxfg : x * f * g = x := by rw [mul_assoc, hfg, mul_one]
      simp only [convertKeys, hl1, pyFloatV, hxfg]
      rw [convertKeys_setItem_comm g ks k hknotin it1 (Value.num x), hback]
      rw [setItem_setItem_self, setItem_lookup_self it k (Value.num x) hx]

/-- Round trip through the whole record list: passes with reciprocal factors
over distinct, everywhere-present-and-numeric keys are mutually inverse. -/
lemma convert_data_roundtrip (f g : ℚ) (hfg : f * g = 1) (ks : List String)
    (hnd : ks.Nodup) :
    ∀ ds : List Item,
      (∀ it ∈ ds, ∀ k ∈ ks, ∃ q, lookupItem it k = some (Value.num q)) →
      ∃ ds1, convert_data ds [(f, ks)] = (ds1, none) ∧
        convert_data ds1 [(g, ks)] = (ds, none) := by
  intro ds
  induction ds with
  | nil => intro _; exact ⟨[], by simp [convert_data], by simp [convert_data]⟩
  | cons it rest ih =>
    intro hnum
    obtain ⟨it1, hit1, hback⟩ := convertKeys_roundtrip f g hfg ks hnd it
      (hnum it (List.mem_cons_self it rest))
    obtain ⟨rest1, hrest1, hrback⟩ := ih
      (fun j hj => hnum j (List.mem_cons_of_mem it hj))
    refine ⟨it1 :: rest1, ?_, ?_⟩
    · simp [convert_data, convertItem, hit1, hrest1]
    · simp [convert_data, convertItem, hback, hrback]

/-- C3: converting the dataset SI→USCS (each of the six motion fields
multiplied by `KM_TO_M = 0.6213711922`) and then USCS→SI (multiplied by the
reciprocal `1 / KM_TO_M`) restores every record — in this exact-arithmetic
model the round trip is the identity on the record list, which in particular
is well within any floating-point tolerance.  Hypotheses: the dataset starts
in SI units (so the first request is not the no-op branch) and every record
carries the six motion fields as numbers, as `load_data` guarantees. -/
theorem convert_iss_data_roundtrip (ds : IssDataDict)
    (hunits : ds.units = "SI")
    (hnum : ∀ it ∈ ds.data, ∀ k ∈ sixKeys,
      ∃ q, lookupItem it k = some (Value.num q)) :
    (convert_iss_data (convert_iss_data ds (some "USCS")).1 (some "SI")).1 =
      ds := by
  obtain ⟨d, u⟩ := ds
  have hu : u = "SI" := hunits
  subst hu
  have hfg : KM_TO_M * (1 / KM_TO_M) = 1 := by norm_num [KM_TO_M]
  have hnd : sixKeys.Nodup := by decide
  obtain ⟨ds1, h1, h2⟩ :=
    convert_data_roundtrip KM_TO_M (1 / KM_TO_M) hfg sixKeys hnd d hnum
  have hinner : convert_iss_data ⟨d, "SI"⟩ (some "USCS") =
      (⟨ds1, "USCS"⟩,
        Except.ok (Payload.success "Data has been converted to USCS units")) := by
    unfold convert_iss_data
    dsimp only [Option.getD]
    rw [if_neg (show ("USCS" : String) = "SI" -> False from by decide),
      if_neg (show ("USCS" : String) = "SI" -> False from by decide),
      if_pos (show ("USCS" : String) = "USCS" from rfl), h1]
  have houter : convert_iss_data ⟨ds1, "USCS"⟩ (some "SI") =
      (⟨d, "SI"⟩,
        Except.ok (Payload.success "Data has been converted to SI units")) := by
    unfold convert_iss_data
    dsimp only [Option.getD]
    rw [if_neg (show ("SI" : String) = "USCS" -> False from by decide),
      if_pos (show ("SI" : String) = "SI" from rfl), h2]
  rw [hinner]
  dsimp only
  rw [houter]

/-- Witness for `convert_iss_data_roundtrip`: a one-record SI dataset with
the six numeric motion fields (and its epoch string) comes back unchanged
from the USCS-then-SI round trip. -/
theorem convert_iss_data_roundtrip_witness :
    (convert_iss_data
      (convert_iss_data
        ⟨[[("epoch", Value.str "2023-048T12:00:00.000Z"), ("X", Value.num 1),
           ("Y", Value.num 2), ("Z", Value.num 3), ("X_Dot", Value.num 4),
           ("Y_Dot", Value.num 5), ("Z_Dot", Value.num 6)]], "SI"⟩
        (some "USCS")).1
      (some "SI")).1 =
    ⟨[[("epoch", Value.str "2023-048T12:00:00.000Z"), ("X", Value.num 1),
       ("Y", Value.num 2), ("Z", Value.num 3), ("X_Dot", Value.num 4),
       ("Y_Dot", Value.num 5), ("Z_Dot", Value.num 6)]], "SI"⟩ := by
  apply convert_iss_data_roundtrip _ rfl
  intro it hit k hk
  rw [List.mem_singleton] at hit
  subst hit
  simp only [sixKeys, List.mem_cons, List.not_mem_nil, or_false] at hk
  rcases hk with rfl | rfl | rfl | rfl | rfl | rfl
  · exact ⟨1, rfl⟩
  · exact ⟨2, rfl⟩
  · exact ⟨3, rfl⟩
  · exact ⟨4, rfl⟩
  · exact ⟨5, rfl⟩
  · exact ⟨6, rfl⟩

/-- C5, counterexample: the claim says an aborted conversion leaves the
dataset in its pre-call state.  False: converting the one-record dataset
whose record has field `X = 1` with the conversion map sending factor `2` to
fields `X` and `W` aborts with `KeyError('W')`, but the record's `X` has
already been rewritten to `2` in place — the returned (mutated) list differs
from the pre-call list. -/
theorem convert_data_mutates_on_abort :
    convert_data [[("X", Value.num 1)]] [(2, ["X", "W"])] =
      ([[("X", Value.num 2)]], some (PyExc.keyError "W")) ∧
    ([[("X", Value.num 2)]] : List Item) ≠ [[("X", Value.num 1)]] := by
  constructor
  · norm_num [convert_data, convertItem, convertKeys, lookupItem, setItem,
      pyFloatV, show (("X" : String) = "W") = False from by decide,
      show (("X" : String) = "X") = True from by decide]
  · intro h
    have := List.head_eq_of_cons_eq h
    have hx : Value.num (2 : ℚ) = Value.num 1 := by
      simpa using this
    have : (2 : ℚ) = 1 := by injection hx
    norm_num at this

/-- C5, amended: when `convert_data` hits an unknown field or a non-numeric
value it aborts with a fatal error, but the dataset is NOT restored to its
pre-call state: every record before the failing one keeps its converted
values, the failing record keeps the conversions applied before the failing
field, and the records after it are untouched. -/
theorem convert_data_abort_keeps_changes (m : List (ℚ × List String))
    (pre post : List Item) (it : Item) (e : PyExc)
    (hpre : ∀ j ∈ pre, (convertItem m j).2 = none)
    (hit : (convertItem m it).2 = some e) :
    convert_data (pre ++ it :: post) m =
      (pre.map (fun j => (convertItem m j).1) ++ (convertItem m it).1 :: post,
        some e) := by
  induction pre with
  | nil =>
    cases hc : convertItem m it with
    | mk a b =>
      rw [hc] at hit
      simp only at hit
      subst hit
      simp [convert_data, hc]
  | cons j pre ih =>
    have hj : (convertItem m j).2 = none := hpre j (List.mem_cons_self j pre)
    cases hcj : convertItem m j with
    | mk a b =>
      rw [hcj] at hj
      simp only at hj
      subst hj
      have ihr := ih (fun j' hj' => hpre j' (List.mem_cons_of_mem j hj'))
      simp [convert_data, hcj, ihr]

/-- Witness for `convert_data_abort_keeps_changes`: with a healthy record ahead of
the failing one and another behind it, the abort leaves the first record
converted, the failing record partially converted, and the last untouched. -/
theorem convert_data_abort_keeps_changes_witness :
    convert_data
      [[("X", Value.num 1), ("Y", Value.num 10)],
       [("X", Value.num 5), ("Y", Value.str "bad")],
       [("X", Value.num 7), ("Y", Value.num 8)]]
      [(2, ["X", "Y"])] =
    ([[("X", Value.num 2), ("Y", Value.num 20)],
      [("X", Value.num 10), ("Y", Value.str "bad")],
      [("X", Value.num 7), ("Y", Value.num 8)]],
      some PyExc.valueError) := by
  have happ : ([[("X", Value.num 1), ("Y", Value.num 10)],
      [("X", Value.num 5), ("Y", Value.str "bad")],
      [("X", Value.num 7), ("Y", Value.num 8)]] : List Item) =
      [[("X", Value.num 1), ("Y", Value.num 10)]] ++
        [("X", Value.num 5), ("Y", Value.str "bad")] ::
          [[("X", Value.num 7), ("Y", Value.num 8)]] := rfl
  rw [happ]
  rw [convert_data_abort_keeps_changes [(2, ["X", "Y"])]
    [[("X", Value.num 1), ("Y", Value.num 10)]]
    [[("X", Value.num 7), ("Y", Value.num 8)]]
    [("X", Value.num 5), ("Y", Value.str "bad")] PyExc.valueError ?_ ?_]
  · norm_num [convertItem, convertKeys, lookupItem, setItem, pyFloatV,
      show (("X" : String) = "Y") = False from by decide,
      show (("X" : String) = "X") = True from by decide,
      show (("Y" : String) = "Y") = True from by decide,
      show pyFloat "bad" = none from by decide]
  · intro j hj
    rw [List.mem_singleton] at hj
    subst hj
    norm_num [convertItem, convertKeys, lookupItem, setItem, pyFloatV,
      show (("X" : String) = "Y") = False from by decide,
      show (("X" : String) = "X") = True from by decide,
      show (("Y" : String) = "Y") = True from by decide]
  · norm_num [convertItem, convertKeys, lookupItem, setItem, pyFloatV,
      show (("X" : String) = "Y") = False from by decide,
      show (("X" : String) = "X") = True from by decide,
      show (("Y" : String) = "Y") = True from by decide,
      show pyFloat "bad" = none from by decide]

/-- Processing with the flag already set: the head line is processed iff
non-empty, and the flag stays set. -/
lemma processedLines_true_cons (start line : List Char) (rest : List (List Char)) :
    processedLines start true (line :: rest) =
      (if line = [] then [] else [line]) ++ processedLines start true rest := by
  by_cases hline : line = []
  · simp [processedLines, hline]
  · simp [processedLines, hline]

/-- Processing with the flag unset: the head line is skipped, and the flag
becomes set iff the stripped line equals the stripped start marker. -/
lemma processedLines_false_cons (start line : List Char) (rest : List (List Char)) :
    processedLines start false (line :: rest) =
      processedLines start (pyStrip line == pyStrip start) rest := by
  simp [processedLines]

/-- Line loop, flag unset: skip the head line, update the flag. -/
lemma txt_to_dict_go_false_cons (keys : List String) (splitline start line : List Char)
    (rest : List (List Char)) :
    txt_to_dict_go keys splitline start false (line :: rest) =
      txt_to_dict_go keys splitline start (pyStrip line == pyStrip start) rest := by
  simp [txt_to_dict_go]

/-- Line loop, flag set, empty line: skip it, flag stays set. -/
lemma txt_to_dict_go_true_nil (keys : List String) (splitline start : List Char)
    (rest : List (List Char)) :
    txt_to_dict_go keys splitline start true ([] :: rest) =
      txt_to_dict_go keys splitline start true rest := by
  simp [txt_to_dict_go]

/-- Line loop, flag set, non-empty line: the line is processed. -/
lemma txt_to_dict_go_true_cons (keys : List String) (splitline start line : List Char)
    (rest : List (List Char)) (hline : line ≠ []) :
    txt_to_dict_go keys splitline start true (line :: rest) =
      (if (pySplit splitline line).length < keys.length then
        Except.error PyExc.indexError
      else
        match txt_to_dict_go keys splitline start true rest with
        | Except.error e => Except.error e
        | Except.ok tail =>
          Except.ok (buildRecord keys (pySplit splitline line) :: tail)) := by
  simp [txt_to_dict_go, hline]

/-- When every processed line splits into at least as many values as there
are keys, the line loop succeeds and returns exactly one record per
processed line, pairing the keys with the first values of that line. -/
lemma txt_to_dict_go_ok (keys : List String) (splitline start : List Char) :
    ∀ (lines : List (List Char)) (parse : Bool),
      (∀ l ∈ processedLines start parse lines,
        keys.length ≤ (pySplit splitline l).length) →
      txt_to_dict_go keys splitline start parse lines =
        Except.ok ((processedLines start parse lines).map
          (fun l => buildRecord keys (pySplit splitline l))) := by
  intro lines
  induction lines with
  | nil => intro parse _; simp [txt_to_dict_go, processedLines]
  | cons line rest ih =>
    intro parse hall
    cases parse with
    | false =>
      rw [processedLines_false_cons] at hall ⊢
      rw [txt_to_dict_go_false_cons]
      exact ih _ hall
    | true =>
      rw [processedLines_true_cons] at hall ⊢
      by_cases hline : line = []
      · rw [if_pos hline] at hall ⊢
        simp only [List.nil_append] at hall ⊢
        subst hline
        rw [txt_to_dict_go_true_nil]
        exact ih true hall
      · rw [if_neg hline] at hall ⊢
        simp only [List.cons_append, List.nil_append] at hall ⊢
        have hlen : keys.length ≤ (pySplit splitline line).length :=
          hall line (List.mem_cons_self _ _)
        have hrest := ih true (fun l hl => hall l (List.mem_cons_of_mem _ hl))
        rw [txt_to_dict_go_true_cons keys splitline start line rest hline,
          if_neg (not_lt.mpr hlen), hrest]
        simp

/-- The line loop raises (with `IndexError`) exactly when some processed
line splits into strictly fewer values than there are keys. -/
lemma txt_to_dict_go_error_iff (keys : List String) (splitline start : List Char) :
    ∀ (lines : List (List Char)) (parse : Bool),
      ((∃ l ∈ processedLines start parse lines,
        (pySplit splitline l).length < keys.length) ↔
      txt_to_dict_go keys splitline start parse lines =
        Except.error PyExc.indexError) := by
  intro lines
  induction lines with
  | nil => intro parse; simp [txt_to_dict_go, processedLines]
  | cons line rest ih =>
    intro parse
    cases parse with
    | false =>
      rw [processedLines_false_cons, txt_to_dict_go_false_cons]
      exact ih _
    | true =>
      rw [processedLines_true_cons]
      by_cases hline : line = []
      · rw [if_pos hline]
        simp only [List.nil_append]
        subst hline
        rw [txt_to_dict_go_true_nil]
        exact ih true
      · rw [if_neg hline]
        simp only [List.cons_append, List.nil_append]
        rw [txt_to_dict_go_true_cons keys splitline start line rest hline]
        by_cases hshort : (pySplit splitline line).length < keys.length
        · rw [if_pos hshort]
          constructor
          · intro _; rfl
          · intro _
            exact ⟨line, List.mem_cons_self _ _, hshort⟩
        · rw [if_neg hshort]
          constructor
          · rintro ⟨l, hl, hls⟩
            rcases List.mem_cons.mp hl with rfl | hl'
            · exact absurd hls hshort
            · rw [(ih true).mp ⟨l, hl', hls⟩]
          · intro herr
            rcases hgo : txt_to_dict_go keys splitline start true rest
              with e | tail
            · rw [hgo] at herr
              simp only [Except.error.injEq] at herr
              subst herr
              obtain ⟨l, hl, hls⟩ := (ih true).mpr hgo
              exact ⟨l, List.mem_cons_of_mem line hl, hls⟩
            · rw [hgo] at herr
              simp at herr

/-- C7, counterexample: the claim says any line whose split value count
differs from the key count aborts parsing.  False for surplus values: with
one key and the line `a b` (two values), `txt_to_dict` accepts the line,
silently dropping the extra value, because the dict comprehension only
indexes `values[i]` for `i < len(keys)`. -/
theorem txt_to_dict_extra_values_accepted :
    (pySplit [' '] "a b".toList).length ≠ (["k"] : List String).length ∧
    txt_to_dict "a b".toList ["k"] ['\r', '\n'] [' '] [] =
      Except.ok [[("k", Value.str "a")]] := by
  constructor
  · decide
  · decide

/-- C7, amended: a processed line splitting into strictly fewer values than
there are field names aborts structural parsing with a fatal `IndexError`
(the abort happens exactly in that case); a processed line with at least as
many values is accepted, pairing the field names with the line's first
values in order and silently dropping any surplus values. -/
theorem txt_to_dict_amended (txt : List Char) (keys : List String)
    (splitlines splitline start : List Char) :
    ((∀ l ∈ processedLines start (start == []) (pySplit splitlines txt),
        keys.length ≤ (pySplit splitline l).length) →
      txt_to_dict txt keys splitlines splitline start =
        Except.ok ((processedLines start (start == []) (pySplit splitlines txt)).map
          (fun l => buildRecord keys (pySplit splitline l)))) ∧
    ((∃ l ∈ processedLines start (start == []) (pySplit splitlines txt),
        (pySplit splitline l).length < keys.length) ↔
      txt_to_dict txt keys splitlines splitline start =
        Except.error PyExc.indexError) := by
  constructor
  · intro hall
    exact txt_to_dict_go_ok keys splitline start (pySplit splitlines txt)
      (start == []) hall
  · exact txt_to_dict_go_error_iff keys splitline start (pySplit splitlines txt)
      (start == [])

/-- Witness for `txt_to_dict_amended`: a two-key parse of two good lines
yields two records (first conjunct), and a short line makes the whole parse
abort with `IndexError` (second conjunct, forward direction). -/
theorem txt_to_dict_amended_witness :
    txt_to_dict "a b\r\nc d".toList ["k1", "k2"] ['\r', '\n'] [' '] [] =
      Except.ok [[("k1", Value.str "a"), ("k2", Value.str "b")],
        [("k1", Value.str "c"), ("k2", Value.str "d")]] ∧
    txt_to_dict "a b\r\nc".toList ["k1", "k2"] ['\r', '\n'] [' '] [] =
      Except.error PyExc.indexError := by
  constructor
  · rw [(txt_to_dict_amended "a b\r\nc d".toList ["k1", "k2"] ['\r', '\n']
      [' '] []).1 (by decide)]
    decide
  · exact (txt_to_dict_amended "a b\r\nc".toList ["k1", "k2"] ['\r', '\n']
      [' '] []).2.mp (by decide)

/-- C6: if the reload fails for any reason — the fetch raised (`fetched =
none`) or `load_data` raised on the fetched text — the previously-loaded
dataset (records and active unit system alike) is returned untouched and a
failure payload is reported. -/
theorem post_data_failure_preserves_dataset (ds : IssDataDict)
    (fetched : Option (List Char))
    (hfail : ∀ txt, fetched = some txt → ∃ e, load_data txt = Except.error e) :
    post_data ds fetched =
      (ds, Payload.failure 404 "Unable to reload data. Please try again later") := by
  match fetched with
  | none => rfl
  | some txt =>
    obtain ⟨e, he⟩ := hfail txt rfl
    simp [post_data, he]

/-- Witness for `post_data_failure_preserves_dataset`, in both failure
modes: a fetch failure, and a fetched text whose parse aborts (a processed
line with too few values), each leave a concrete dataset untouched. -/
theorem post_data_failure_preserves_dataset_witness :
    post_data ⟨[[("X", Value.num 1)]], "SI"⟩ none =
      (⟨[[("X", Value.num 1)]], "SI"⟩,
        Payload.failure 404 "Unable to reload data. Please try again later") ∧
    post_data ⟨[[("X", Value.num 1)]], "SI"⟩
      (some "COMMENT End sequence of events\r\na b".toList) =
      (⟨[[("X", Value.num 1)]], "SI"⟩,
        Payload.failure 404 "Unable to reload data. Please try again later") := by
  constructor
  · exact post_data_failure_preserves_dataset _ none (fun txt h => nomatch h)
  · exact post_data_failure_preserves_dataset _ _
      (fun txt h => by
        rw [Option.some.injEq] at h
        subst h
        exact ⟨PyExc.indexError, by decide⟩)

/-- A nonnegative slice `[a : a + n]` is drop-then-take. -/
lemma pySlice_eq_drop_take {α : Type} (l : List α) (a n : ℤ) (ha : 0 ≤ a)
    (hn : 0 ≤ n) :
    pySlice l a (a + n) = (l.drop a.toNat).take n.toNat := by
  unfold pySlice
  rw [List.drop_take]
  congr 1
  omega

/-- C8: pagination of the list operations.  For nonnegative parsed values,
`get_data` and `get_epochs` return exactly the sub-sequence
`[offset, offset + limit)` clipped to the available length (with the
defaults `offset = 0` and `limit = 2**31 - 1`, effectively unbounded, when
an argument is absent); a non-parseable or negative `limit` or `offset`
yields the user-input error tuple with status 404 in both operations, never
an exception. -/
theorem get_data_get_epochs_pagination (l : List StateVector)
    (limit_arg offset_arg : Option String) :
    (∀ limit offset : ℤ, argVal limit_arg (2 ^ 31 - 1) = some limit →
      argVal offset_arg 0 = some offset → 0 ≤ limit → 0 ≤ offset →
      get_data l limit_arg offset_arg =
        Except.ok ((l.drop offset.toNat).take limit.toNat) ∧
      get_epochs l limit_arg offset_arg =
        Except.ok (((l.map (fun v => v.epochS)).drop offset.toNat).take limit.toNat)) ∧
    ((argVal limit_arg (2 ^ 31 - 1) = none ∨
      (∃ limit, limit < 0 ∧ argVal limit_arg (2 ^ 31 - 1) = some limit) ∨
      argVal offset_arg 0 = none ∨
      (∃ offset, offset < 0 ∧ argVal offset_arg 0 = some offset)) →
      get_data l limit_arg offset_arg =
        Except.error ("ERROR: limit and offset must be a positive intgers", 404) ∧
      get_epochs l limit_arg offset_arg =
        Except.error
          (Payload.failure 404 "ERROR: limit and offset must be a positive intgers", 404)) := by
  constructor
  · intro limit offset hla hoa hlim hoff
    constructor
    · simp only [get_data, hla, hoa]
      rw [if_neg (not_lt.mpr hlim), if_neg (not_lt.mpr hoff),
        pySlice_eq_drop_take l offset limit hoff hlim]
    · simp only [get_epochs, hla, hoa]
      rw [if_neg (not_lt.mpr hlim), if_neg (not_lt.mpr hoff),
        pySlice_eq_drop_take _ offset limit hoff hlim]
  · rintro (hna | ⟨limit, hneg, hla⟩ | hno | ⟨offset, hneg, hoa⟩)
    · exact ⟨by simp only [get_data, hna], by simp only [get_epochs, hna]⟩
    · exact ⟨by simp only [get_data, hla]; rw [if_pos hneg],
        by simp only [get_epochs, hla]; rw [if_pos hneg]⟩
    · rcases hla : argVal limit_arg (2 ^ 31 - 1) with _ | limit
      · exact ⟨by simp only [get_data, hla], by simp only [get_epochs, hla]⟩
      · by_cases hnegl : limit < 0
        · exact ⟨by simp only [get_data, hla]; rw [if_pos hnegl],
            by simp only [get_epochs, hla]; rw [if_pos hnegl]⟩
        · exact ⟨by simp only [get_data, hla]; rw [if_neg hnegl]; simp only [hno],
            by simp only [get_epochs, hla]; rw [if_neg hnegl]; simp only [hno]⟩
    · rcases hla : argVal limit_arg (2 ^ 31 - 1) with _ | limit
      · exact ⟨by simp only [get_data, hla], by simp only [get_epochs, hla]⟩
      · by_cases hnegl : limit < 0
        · exact ⟨by simp only [get_data, hla]; rw [if_pos hnegl],
            by simp only [get_epochs, hla]; rw [if_pos hnegl]⟩
        · constructor
          · simp only [get_data, hla]
            rw [if_neg hnegl]
            simp only [hoa]
            rw [if_pos hneg]
          · simp only [get_epochs, hla]
            rw [if_neg hnegl]
            simp only [hoa]
            rw [if_pos hneg]

/-- Witness for `get_data_get_epochs_pagination`: on a three-record dataset,
`limit = "2"`, `offset = "1"` returns the records (and epochs) at indices
1 and 2. -/
theorem get_data_get_epochs_pagination_witness :
    get_data [⟨10, 0, 0, 0, 0, 0, 0⟩, ⟨20, 0, 0, 0, 0, 0, 0⟩,
        ⟨30, 0, 0, 0, 0, 0, 0⟩] (some "2") (some "1") =
      Except.ok [⟨20, 0, 0, 0, 0, 0, 0⟩, ⟨30, 0, 0, 0, 0, 0, 0⟩] ∧
    get_epochs [⟨10, 0, 0, 0, 0, 0, 0⟩, ⟨20, 0, 0, 0, 0, 0, 0⟩,
        ⟨30, 0, 0, 0, 0, 0, 0⟩] (some "2") (some "1") =
      Except.ok [20, 30] := by
  have h := (get_data_get_epochs_pagination
    [⟨10, 0, 0, 0, 0, 0, 0⟩, ⟨20, 0, 0, 0, 0, 0, 0⟩, ⟨30, 0, 0, 0, 0, 0, 0⟩]
    (some "2") (some "1")).1 2 1 (by decide) (by decide) (by decide) (by decide)
  exact ⟨by rw [h.1]; rfl, by rw [h.2]; rfl⟩

/-- C9: the claim says the Earth-rotation correction is derived from the
epoch's hour and minute.  The code instead reads single characters at fixed
string offsets, i.e. the LAST decimal digit of each: for the epoch
`2023-02-17T13:04:56.000` (hour 13, minute 4) with `atan2` contribution `0`
(position on the positive x half-axis), the code computes
`0 - ((3 - 12) + 4/60)*15 + 32 = 166`, while the claimed formula gives
`0 - ((13 - 12) + 4/60)*15 + 32 = 16`. -/
theorem get_location_longitude_digit_slicing :
    get_location_longitude 0 "2023-02-17T13:04:56.000".toList = 166 ∧
    spec_longitude 0 13 4 = 16 ∧ (166 : ℚ) ≠ 16 := by
  refine ⟨?_, ?_, by norm_num⟩
  · have h12 : (utcTime "2023-02-17T13:04:56.000".toList).getD 12 ' ' = '3' := by
      decide
    have h15 : (utcTime "2023-02-17T13:04:56.000".toList).getD 15 ' ' = '4' := by
      decide
    rw [get_location_longitude, get_location_hrs, get_location_mins, h12, h15]
    norm_num [int1, show ('3'.toNat - 48 : ℕ) = 3 from by decide,
      show ('4'.toNat - 48 : ℕ) = 4 from by decide]
  · norm_num [spec_longitude]
